import Mathlib

/-!
Shallow embedding of `mmf/models/uniter.py` (UNITER multimodal encoder and
its pretraining wrapper), together with proofs about the claims of the
specification.

Modelling conventions:
* Machine floats are modelled by `ℚ`; integer tensors by `Int`.
* A 2-d tensor is `List (List Int)` (`Mat`), a 3-d feature tensor is
  `List (List (List ℚ))` (`Feat`), a 2-d boolean mask is `List (List Bool)`.
* External collaborators (BERT text embeddings, the transformer encoder
  stack, linear/layer-norm layers, loss units, heads) are fields of the
  model structures: the source consumes them through opaque module calls,
  so they appear here as arbitrary functions.
* Fallible code (Python `assert`, `KeyError`, unsupported-task `raise`)
  returns `Except Err _`.
* `random.random()` / `random.choice` draws are threaded explicitly through
  a `Rnd` structure (a rational draw per (example, position) and a chosen
  index per example).
* The sample list is a Python dict mutated in place; it is embedded as a
  record threaded through the preprocessing functions, whose final value is
  the content of the caller's dict after `forward` returns.
-/

namespace UniterSpec

abbrev Vec := List ℚ
abbrev Mat := List (List Int)
abbrev Feat := List (List Vec)
abbrev BMask := List (List Bool)

/-- Elementwise addition of two feature vectors (`img_feat + mask` on the
last dimension). -/
def addVec (v w : Vec) : Vec := List.zipWith (· + ·) v w

/-- `UniterImageEmbeddings` (uniter.py lines 24-63).  `mask_embedding` is an
`nn.Embedding(2, img_dim)` whose two rows are kept explicitly; `transform`
stands for lines 58-62 (the linear projections, layer norms, sum with the
type embedding and dropout), which are external `nn` modules. -/
structure UniterImageEmbeddings where
  mask_embedding_row0 : Vec
  mask_embedding_row1 : Vec
  transform : Feat → Feat → Feat → Feat

/-- Lines 53-56 of `UniterImageEmbeddings.forward`: when `img_masks` is
given, row 0 of the mask-embedding table is zeroed in place
(`self.mask_embedding.weight.data[0, :].fill_(0)`) and the table is looked
up on the integer-cast mask (`self.mask_embedding(img_masks.long())`), so a
true position receives row 1 and a false position receives the zeroed row 0;
the lookup result is added to `img_feat`. -/
def UniterImageEmbeddings.applyMask (m : UniterImageEmbeddings) (img_feat : Feat)
    (img_masks : Option BMask) : Feat :=
  match img_masks with
  | none => img_feat
  | some masks =>
    let row0 := m.mask_embedding_row0.map (fun _ => (0 : ℚ))
    List.zipWith
      (fun ex mrow =>
        List.zipWith (fun v b => addVec v (if b then m.mask_embedding_row1 else row0)) ex mrow)
      img_feat masks

/-- `UniterImageEmbeddings.forward` (lines 52-63): the optional masking step
followed by the projection/normalization pipeline. -/
def UniterImageEmbeddings.forward (m : UniterImageEmbeddings)
    (img_feat img_pos_feat type_embeddings : Feat) (img_masks : Option BMask) : Feat :=
  m.transform (m.applyMask img_feat img_masks) img_pos_feat type_embeddings

/-- Shape (batch, 1, 1, seq) additive attention mask, rational valued. -/
abbrev ExtMask := List (List (List (List ℚ)))

/-- Lines 181-185 of `UniterModelBase.forward`: unsqueeze the 0/1 padding
mask to (batch, 1, 1, seq), cast to the parameter dtype (a no-op in this
rational model) and apply `(1.0 - mask) * -10000.0`. -/
def extendedAttentionMask (attention_mask : Mat) : ExtMask :=
  attention_mask.map (fun row => [[row.map (fun m : Int => (1 - (m : ℚ)) * (-10000))]])

/-- `UniterModelBase` (lines 66-217).  `txtEmb` is the external
`BertEmbeddings` module (input_ids, position_ids, token_type_ids);
`tokenTypeEmb` is `self.embeddings.token_type_embeddings`; `encoder` is the
external BERT encoder stack, returning the list of hidden states (its last
element is the final layer). -/
structure UniterModelBase where
  txtEmb : Mat → Option Mat → Option Mat → Feat
  tokenTypeEmb : Mat → Feat
  imgEmb : UniterImageEmbeddings
  encoder : Feat → ExtMask → Bool → List Feat

/-- `_compute_txt_embeddings` (lines 121-127). -/
def UniterModelBase.computeTxtEmbeddings (M : UniterModelBase) (input_ids : Mat)
    (position_ids : Option Mat) (txt_type_ids : Option Mat) : Feat :=
  M.txtEmb input_ids position_ids txt_type_ids

/-- `_compute_img_embeddings` (lines 129-138): image type ids default to
`torch.ones_like(img_feat[:, :, 0].long())` when not supplied; the type
embedding is looked up and passed to the image-embedding module. -/
def UniterModelBase.computeImgEmbeddings (M : UniterModelBase) (img_feat img_pos_feat : Feat)
    (img_masks : Option BMask) (img_type_ids : Option Mat) : Feat :=
  let tids :=
    match img_type_ids with
    | some t => t
    | none => img_feat.map (fun ex => ex.map (fun _ => (1 : Int)))
  M.imgEmb.forward img_feat img_pos_feat (M.tokenTypeEmb tids) img_masks

/-- `_compute_img_txt_embeddings` (lines 140-165): text and image embeddings
are computed independently and concatenated along the sequence dimension,
text first (`torch.cat([txt_emb, img_emb], dim=1)`).  The gather/compaction
step is commented out in the source (lines 156-163), so `gather_index` is
accepted and ignored. -/
def UniterModelBase.computeImgTxtEmbeddings (M : UniterModelBase) (input_ids : Mat)
    (position_ids : Option Mat) (img_feat img_pos_feat : Feat) (gather_index : Option Mat)
    (img_masks : Option BMask) (txt_type_ids img_type_ids : Option Mat) : Feat :=
  List.zipWith (· ++ ·)
    (M.computeTxtEmbeddings input_ids position_ids txt_type_ids)
    (M.computeImgEmbeddings img_feat img_pos_feat img_masks img_type_ids)

/-- The embedding-layer dispatch of `UniterModelBase.forward` (lines
188-208): `input_ids is None` selects the image-only path, otherwise
`img_feat is None` selects the text-only path, otherwise the joint path.
(In the image-only path the source would raise if `img_feat` were also
absent; that unreachable case is modelled by `getD []`.) -/
def UniterModelBase.embeddingOutput (M : UniterModelBase) (input_ids : Option Mat)
    (position_ids : Option Mat) (img_feat : Option Feat) (img_pos_feat : Feat)
    (gather_index : Option Mat) (img_masks : Option BMask)
    (txt_type_ids img_type_ids : Option Mat) : Feat :=
  match input_ids with
  | none => M.computeImgEmbeddings (img_feat.getD []) img_pos_feat img_masks img_type_ids
  | some ids =>
    match img_feat with
    | none => M.computeTxtEmbeddings ids position_ids txt_type_ids
    | some f =>
      M.computeImgTxtEmbeddings ids position_ids f img_pos_feat gather_index img_masks
        txt_type_ids img_type_ids

/-- `UniterModelBase.forward` (lines 167-217): build the additive attention
mask, build the embedding output, run the encoder stack; when
`output_hidden_states` is false only the last hidden state is returned
(`encoded_layers[-1]`, modelled as the final singleton of the layer list). -/
def UniterModelBase.forward (M : UniterModelBase) (input_ids : Option Mat)
    (position_ids : Option Mat) (img_feat : Option Feat) (img_pos_feat : Feat)
    (attention_mask : Mat) (gather_index : Option Mat) (img_masks : Option BMask)
    (output_hidden_states : Bool) (txt_type_ids img_type_ids : Option Mat) : List Feat :=
  let ext := extendedAttentionMask attention_mask
  let emb := M.embeddingOutput input_ids position_ids img_feat img_pos_feat gather_index
    img_masks txt_type_ids img_type_ids
  let layers := M.encoder emb ext output_hidden_states
  if output_hidden_states then layers else layers.drop (layers.length - 1)

/-! ## `_process_head_outputs` (lines 220-229) -/

/-- A tensor with explicit shape, used for the `.view(-1, d)` reshape in
`_process_head_outputs`. -/
structure PTensor where
  shape : List Nat
  data : List ℚ
deriving DecidableEq

/-- `t.size(-1)`: the last dimension. -/
def PTensor.sizeLast (t : PTensor) : Nat := t.shape.getLastD 0

/-- `t.contiguous().view(-1, d)`: same data, shape (numel / d, d). -/
def PTensor.view2 (t : PTensor) (d : Nat) : PTensor := ⟨[t.data.length / d, d], t.data⟩

/-- A head output that is a mutable mapping: optional `losses` and `scores`
entries (`L` is the type of a loss result, opaque to this module). -/
structure HeadMap (L : Type) where
  losses : Option L
  scores : Option PTensor

/-- The value returned by a head: either a raw tensor of logits or a
mapping. -/
inductive HeadOutput (L : Type) where
  | tensor (t : PTensor)
  | mapping (m : HeadMap L)

inductive HeadErr where
  | attributeError
deriving DecidableEq

/-- `_process_head_outputs` (lines 220-229): a mapping containing `losses`
is returned unchanged; otherwise the logits (the `scores` entry of a
mapping, or the raw tensor itself) are reshaped to `(-1, size(-1))`, the
loss unit keyed by `dataset_name` is applied, and
`{losses: <result>, scores: <logits>}` is returned.  A mapping with neither
`losses` nor `scores` would hit `.contiguous()` on a dict in the source
(`AttributeError`). -/
def process_head_outputs {S L : Type} (dataset_name : String)
    (losses : String → S → PTensor → L) (sample_list : S) (outputs : HeadOutput L) :
    Except HeadErr (HeadOutput L) :=
  match outputs with
  | .mapping m =>
    match m.losses with
    | some _ => .ok outputs
    | none =>
      match m.scores with
      | some s =>
        let logits := s.view2 s.sizeLast
        .ok (.mapping ⟨some (losses dataset_name sample_list logits), some logits⟩)
      | none => .error .attributeError
  | .tensor t =>
    let logits := t.view2 t.sizeLast
    .ok (.mapping ⟨some (losses dataset_name sample_list logits), some logits⟩)

/-! ## The pretraining sample list and `UniterForPretraining` -/

/-- The `mlm_labels` dict built by `_preprocess_mlm` (lines 427-438). -/
structure MlmLabels where
  text : Mat
  image : Mat
  combined_labels : Mat
deriving DecidableEq

/-- The sample-list dict threaded through the pretraining forward.  Every
tensor field the source reads or writes is a typed optional field; `task`
and `dataset_name` are strings.  `image_info_cls_prob` models
`sample_list["image_info_0"]["cls_prob"]`; `itm_labels_is_correct` models
`sample_list["itm_labels"]["is_correct"]`; `mrc_label`/`mrc_mask`,
`mrfr_target`/`mrfr_mask`, `ot_inputs` and `wra_label` model the entries
stored under the head-configured key names.  The integer-valued image mask a
dataset may supply is modelled by its boolean view; `_add_image_feat_masked`
overwrites it with the freshly drawn boolean mask exactly as the source
does. -/
structure SampleList where
  input_ids : Option Mat := none
  position_ids : Option Mat := none
  input_mask : Option Mat := none
  image_feat : Option Feat := none
  img_pos_feat : Option Feat := none
  attention_mask : Option Mat := none
  image_mask : Option BMask := none
  image_feat_masked : Option Feat := none
  lm_label_ids : Option Mat := none
  cls_prob : Option Feat := none
  is_correct : Option (List Int) := none
  task : String := ""
  dataset_name : String := ""
  input_ids_masked : Option Mat := none
  image_info_cls_prob : Option Feat := none
  mlm_labels : Option MlmLabels := none
  itm_labels_is_correct : Option (List Int) := none
  mrc_label : Option (List Vec) := none
  mrc_mask : Option BMask := none
  mrfr_target : Option (List Vec) := none
  mrfr_mask : Option BMask := none
  ot_inputs : Option (BMask × BMask) := none
  wra_label : Option (List Int) := none
deriving DecidableEq

/-- Failure modes of the pretraining forward.  `missingIsCorrect` is the
distinguished assertion at lines 344-348 («UNITER pretraining requires
mismatched captions …»); `missingField` covers the other `assert`s and dict
`KeyError`s; `unsupportedTask` is the `raise ValueError` at line 364. -/
inductive Err where
  | missingIsCorrect
  | missingField (name : String)
  | unsupportedTask (t : String)
deriving DecidableEq

/-- The random draws consumed by `_add_image_feat_masked`: `rand i j` is the
`random.random()` draw for example `i`, position `j`; `choice i` is the
`random.choice(range(num_bb))` draw for example `i` (always a valid index in
the source). -/
structure Rnd where
  rand : Nat → Nat → ℚ
  choice : Nat → Nat

/-- `_get_img_mask` (lines 415-420): draw a Bernoulli mask
(`random.random() < mask_prob` per position); if no position was drawn,
force position `choice` to true. -/
def get_img_mask (mask_prob : ℚ) (rand : Nat → ℚ) (choice : Nat) (num_bb : Nat) : List Bool :=
  let img_mask := (List.range num_bb).map (fun j => decide (rand j < mask_prob))
  if img_mask.any id then img_mask else img_mask.set choice true

/-- `img_feat_masked.data.masked_fill(img_masks_ext, 0)` (lines 409-412):
zero out the whole feature row of every masked position.  `masked_fill`
(without underscore) is out of place: it returns a fresh tensor and leaves
its receiver — and hence the batch's `image_feat` — untouched. -/
def maskedFill0 (masks : BMask) (feat : Feat) : Feat :=
  List.zipWith
    (fun mrow ex => List.zipWith (fun b v => if b then v.map (fun _ => (0 : ℚ)) else v) mrow ex)
    masks feat

/-- `_add_image_feat_masked` (lines 399-413): clone `image_feat`, draw one
mask per example (`num_feat` = size(1) of the features), store the zeroed
clone under `image_feat_masked` and the drawn masks under `image_mask`.
`image_feat` itself is not modified (clone + out-of-place `masked_fill`). -/
def add_image_feat_masked (mask_prob : ℚ) (r : Rnd) (sl : SampleList) :
    Except Err SampleList :=
  match sl.image_feat with
  | none => .error (.missingField "image_feat")
  | some feat =>
    let num_feat := (feat.headD []).length
    let img_masks :=
      (List.range feat.length).map (fun i => get_img_mask mask_prob (r.rand i) (r.choice i) num_feat)
    .ok { sl with
            image_feat_masked := some (maskedFill0 img_masks feat),
            image_mask := some img_masks }

/-- Lines 519-520: `pos_pairs = is_correct.ne(0)`;
`pos_pairs_mask = torch.where(pos_pairs.any(), pos_pairs, [True])` — the
keep mask, degenerating to keep-all when every pair is mismatched. -/
def posPairsMask (is_correct : List Int) : List Bool :=
  let pos_pairs := is_correct.map (fun x => decide (x ≠ 0))
  if pos_pairs.any id then pos_pairs else is_correct.map (fun _ => true)

/-- Select along dimension 0 the rows flagged true (`x[pos_pairs_mask]`). -/
def filterRows {α : Type} (keep : List Bool) (xs : List α) : List α :=
  (List.zip keep xs).filterMap (fun p => if p.1 then some p.2 else none)

/-- `_remove_mismatched_captions` (lines 516-543) as the source actually
behaves: after the `assert "is_correct"` (line 517) the keep mask is
computed (lines 519-520) and, for each name in the tensor-name list, the
filtered tensor `x[pos_pairs_mask]` / `x[pos_pairs_mask, ::]` is bound to
the *local* variable `x` (lines 541, 543) and never stored back into
`processed_sample_list`, so the sample list is returned unchanged.  (The
dim==1 shape `assert` at line 537 can only fire for a 1-d listed tensor;
every listed field has dimension ≥ 2 in this model.) -/
def remove_mismatched_captions (sl : SampleList) : Except Err SampleList :=
  match sl.is_correct with
  | none => .error (.missingField "is_correct")
  | some ic =>
    let _pos_pairs_mask := posPairsMask ic
    .ok sl

/-- The filtering that `_remove_mismatched_captions` computes but discards,
written out with `filterRows` applied to every name in the source's
tensor-name list (lines 521-531); used to exhibit what the batch would have
looked like had the results been written back. -/
def remove_mismatched_captions_filtered (sl : SampleList) : Except Err SampleList :=
  match sl.is_correct with
  | none => .error (.missingField "is_correct")
  | some ic =>
    let keep := posPairsMask ic
    .ok { sl with
            input_ids := sl.input_ids.map (filterRows keep),
            input_mask := sl.input_mask.map (filterRows keep),
            image_feat := sl.image_feat.map (filterRows keep),
            img_pos_feat := sl.img_pos_feat.map (filterRows keep),
            attention_mask := sl.attention_mask.map (filterRows keep),
            image_mask := sl.image_mask.map (filterRows keep),
            image_feat_masked := sl.image_feat_masked.map (filterRows keep),
            lm_label_ids := sl.lm_label_ids.map (filterRows keep),
            cls_prob := sl.cls_prob.map (filterRows keep) }

/-- `_process_sample_list_for_pretraining` (lines 385-397): for `mrc`/`mrfr`
build the masked features and attach `cls_prob` from
`image_info_0["cls_prob"]`; for every task except `itm` and `wra` run
`_remove_mismatched_captions`. -/
def process_sample_list_for_pretraining (mask_prob : ℚ) (r : Rnd) (sl : SampleList) :
    Except Err SampleList :=
  let step1 : Except Err SampleList :=
    if sl.task = "mrc" ∨ sl.task = "mrfr" then
      (add_image_feat_masked mask_prob r sl).bind (fun s =>
        match s.image_info_cls_prob with
        | none => .error (.missingField "image_info_0.cls_prob")
        | some cp => .ok { s with cls_prob := some cp })
    else .ok sl
  step1.bind (fun s =>
    if ¬s.task = "itm" ∧ ¬s.task = "wra" then remove_mismatched_captions s else .ok s)

/-- `_preprocess_mlm` (lines 422-439): build `mlm_labels` (text labels, an
all-`ignore_index` block shaped like the first two image-feature dims, and
their concatenation along the last dim) and swap `input_ids` for
`input_ids_masked`. -/
def preprocess_mlm (ignore_index : Int) (sl : SampleList) : Except Err SampleList :=
  match sl.lm_label_ids with
  | none => .error (.missingField "lm_label_ids")
  | some lm =>
    match sl.input_ids_masked with
    | none => .error (.missingField "input_ids_masked")
    | some ids_masked =>
      match sl.image_feat with
      | none => .error (.missingField "image_feat")
      | some feat =>
        let image_labels := feat.map (fun ex => ex.map (fun _ => ignore_index))
        let combined := List.zipWith (· ++ ·) lm image_labels
        .ok { sl with
                mlm_labels := some ⟨lm, image_labels, combined⟩,
                input_ids := some ids_masked }

/-- `_preprocess_itm` (lines 441-445). -/
def preprocess_itm (sl : SampleList) : Except Err SampleList :=
  match sl.is_correct with
  | none => .error (.missingField "is_correct")
  | some ic => .ok { sl with itm_labels_is_correct := some ic }

/-- `x[img_masks_ext].contiguous().view(-1, d)` (lines 457-459, 478-481):
collect, example by example, the last-dim vectors at the positions flagged
true by the mask. -/
def gatherMasked (masks : BMask) (x : Feat) : List Vec :=
  (List.zip masks x).flatMap
    (fun p => (List.zip p.1 p.2).filterMap (fun q => if q.1 then some q.2 else none))

/-- `_preprocess_mrc` (lines 447-467): gather classifier probabilities at
masked positions, build the combined text+image mask (all-false over the
text span), and swap `image_feat` for `image_feat_masked`. -/
def preprocess_mrc (sl : SampleList) : Except Err SampleList :=
  match sl.cls_prob with
  | none => .error (.missingField "cls_prob")
  | some cp =>
    match sl.image_mask with
    | none => .error (.missingField "image_mask")
    | some mask =>
      match sl.image_feat_masked with
      | none => .error (.missingField "image_feat_masked")
      | some _ =>
        match sl.input_ids with
        | none => .error (.missingField "input_ids")
        | some ids =>
          let gathered := gatherMasked mask cp
          let sentence_len := (ids.headD []).length
          let concat_mask := mask.map (fun mrow => List.replicate sentence_len false ++ mrow)
          .ok { sl with
                  mrc_label := some gathered,
                  mrc_mask := some concat_mask,
                  image_feat := sl.image_feat_masked }

/-- `_preprocess_mrfr` (lines 469-489): gather the *raw* region features at
masked positions as regression targets, build the combined mask, and swap
`image_feat` for `image_feat_masked` — the swap happens only after the
targets have been gathered from the untouched `image_feat`. -/
def preprocess_mrfr (sl : SampleList) : Except Err SampleList :=
  match sl.image_mask with
  | none => .error (.missingField "image_mask")
  | some mask =>
    match sl.image_feat_masked with
    | none => .error (.missingField "image_feat_masked")
    | some _ =>
      match sl.image_feat with
      | none => .error (.missingField "image_feat")
      | some feat =>
        match sl.input_ids with
        | none => .error (.missingField "input_ids")
        | some ids =>
          let feat_targets := gatherMasked mask feat
          let sentence_len := (ids.headD []).length
          let concat_mask := mask.map (fun mrow => List.replicate sentence_len false ++ mrow)
          .ok { sl with
                  mrfr_target := some feat_targets,
                  mrfr_mask := some concat_mask,
                  image_feat := sl.image_feat_masked }

/-- `_compute_pad` (lines 500-505): zeros of width `max(lens)` with
`pad[i, l:]` filled with ones, i.e. position `j` of row `i` is padded iff
`lens[i] ≤ j`. -/
def compute_pad (lens : List Nat) : BMask :=
  let max_len := lens.foldl max 0
  lens.map (fun l => (List.range max_len).map (fun j => decide (l ≤ j)))

/-- `_preprocess_wra` (lines 491-514): build the per-modality padding masks
from the per-example sequence lengths and expose `is_correct` as the wra
label. -/
def preprocess_wra (sl : SampleList) : Except Err SampleList :=
  match sl.is_correct with
  | none => .error (.missingField "is_correct")
  | some ic =>
    match sl.input_ids with
    | none => .error (.missingField "input_ids")
    | some ids =>
      match sl.image_feat with
      | none => .error (.missingField "image_feat")
      | some feat =>
        let txt_lens := ids.map List.length
        let num_bbs := feat.map List.length
        .ok { sl with
                ot_inputs := some (compute_pad txt_lens, compute_pad num_bbs),
                wra_label := some ic }

/-- The six sample-list fields handed to the joint encoder at lines 366-374
(`gather_index` is passed as `None`). -/
structure EncoderIn where
  input_ids : Option Mat
  position_ids : Option Mat
  image_feat : Option Feat
  img_pos_feat : Option Feat
  attention_mask : Option Mat
  image_mask : Option BMask
deriving DecidableEq

def mkEncoderIn (sl : SampleList) : EncoderIn :=
  ⟨sl.input_ids, sl.position_ids, sl.image_feat, sl.img_pos_feat, sl.attention_mask,
    sl.image_mask⟩

/-- The pieces of `UniterForPretraining`'s configuration the forward pass
reads: `mask_probability` (line 400) and the `mlm` head's `ignore_index`
(line 426). -/
structure PretrainCfg where
  mask_probability : ℚ := 0
  mlm_ignore_index : Int := -1

/-- The task dispatch of `UniterForPretraining.forward` (lines 352-364): a
closed case split over the five pretraining tasks; any other value raises
`ValueError`. -/
def dispatchTask (cfg : PretrainCfg) (sl : SampleList) : Except Err SampleList :=
  if sl.task = "mlm" then preprocess_mlm cfg.mlm_ignore_index sl
  else if sl.task = "itm" then preprocess_itm sl
  else if sl.task = "mrc" then preprocess_mrc sl
  else if sl.task = "mrfr" then preprocess_mrfr sl
  else if sl.task = "wra" then preprocess_wra sl
  else .error (.unsupportedTask sl.task)

/-- `UniterForPretraining.forward` (lines 343-383): assert `is_correct` is
present (lines 344-348), run the common preprocessing (line 350), dispatch
on the task (lines 352-364), then hand the six encoder fields to the joint
encoder (lines 366-374).  The encoder stack and head are external modules;
the `EncoderIn` component of the result records exactly what would be passed
to them, and the returned `SampleList` is the final content of the caller's
(in-place mutated) dict. -/
def UniterForPretraining.forward (cfg : PretrainCfg) (r : Rnd) (sl : SampleList) :
    Except Err (SampleList × EncoderIn) :=
  match sl.is_correct with
  | none => .error .missingIsCorrect
  | some _ =>
    (process_sample_list_for_pretraining cfg.mask_probability r sl).bind (fun s1 =>
      (dispatchTask cfg s1).map (fun s2 => (s2, mkEncoderIn s2)))

/-! ## Concrete instances used to exercise the model -/

/-- Deterministic random source: every `random.random()` draw is 0 and
every `random.choice` picks index 0. -/
def rW : Rnd := ⟨fun _ _ => 0, fun _ => 0⟩

/-- Default pretraining configuration (mask probability 0, ignore index
-1). -/
def cfgW : PretrainCfg := {}

/-- A batch of one example with a single one-dimensional region feature. -/
def slW2 : SampleList := { image_feat := some [[[3]]] }

/-- An mlm batch of two examples whose second pair is mismatched
(`is_correct = [1, 0]`). -/
def slC1 : SampleList :=
  { input_ids := some [[7], [8]], is_correct := some [1, 0], task := "mlm" }

/-- A batch carrying no `is_correct` field. -/
def slEmpty : SampleList := {}

/-- A well-formed one-example itm batch. -/
def slITM : SampleList := { is_correct := some [1], task := "itm" }

/-- A batch with an out-of-vocabulary task name. -/
def slBadTask : SampleList := { is_correct := some [1], task := "vqa" }

/-- A complete one-example mlm batch (masked ids differ from the raw
ids). -/
def slMLM : SampleList :=
  { input_ids := some [[1]], input_ids_masked := some [[2]], lm_label_ids := some [[0]],
    image_feat := some [[[4]]], is_correct := some [1], task := "mlm" }

/-- The sample list `slMLM` after the pretraining forward: `input_ids` has
been overwritten by `input_ids_masked` and `mlm_labels` attached. -/
def slMLMfin : SampleList :=
  { slMLM with input_ids := some [[2]], mlm_labels := some ⟨[[0]], [[-1]], [[0, -1]]⟩ }

/-- A complete one-example mrc batch (one region, feature value 7, dataset
image mask all-false). -/
def slMRC : SampleList :=
  { input_ids := some [[1]], image_feat := some [[[7]]], image_mask := some [[false]],
    image_info_cls_prob := some [[[2]]], is_correct := some [1], task := "mrc" }

/-- The sample list `slMRC` after the pretraining forward: the drawn mask
has overwritten `image_mask` and the zeroed features `image_feat`. -/
def slMRCfin : SampleList :=
  { slMRC with
    image_mask := some [[true]], image_feat_masked := some [[[0]]],
    cls_prob := some [[[2]]], mrc_label := some [[2]], mrc_mask := some [[false, true]],
    image_feat := some [[[0]]] }

/-- A trivial joint-encoder instance (all external modules degenerate). -/
def MW : UniterModelBase :=
  ⟨fun _ _ _ => [], fun _ => [], ⟨[], [], fun a _ _ => a⟩, fun _ _ _ => []⟩

/-- A concrete image-embedding module with visible mask-embedding rows. -/
def mIE : UniterImageEmbeddings := ⟨[10], [20], fun a _ _ => a⟩

/-- A one-example mrfr batch: one region with feature value 5. -/
def slW9 : SampleList := { image_feat := some [[[5]]], input_ids := some [[1]] }

/-- `slW9` after `_add_image_feat_masked` (all draws 0, choice 0). -/
def slW9a : SampleList :=
  { slW9 with image_feat_masked := some [[[0]]], image_mask := some [[true]] }

/-- `slW9a` after `_preprocess_mrfr`. -/
def slW9b : SampleList :=
  { slW9a with
    mrfr_target := some [[5]], mrfr_mask := some [[false, true]],
    image_feat := some [[[0]]] }

/-! ## Helper lemmas -/

theorem any_set_true (l : List Bool) : ∀ i : Nat, i < l.length → (l.set i true).any id = true := by
  induction l with
  | nil => intro i h; simp at h
  | cons a t ih =>
    intro i h
    cases i with
    | zero => simp [List.set]
    | succ n =>
      have ht : (t.set n true).any id = true := ih n (by simpa using h)
      simp [List.set, ht]

theorem get_img_mask_any_true (mask_prob : ℚ) (rand : Nat → ℚ) (choice num_bb : Nat)
    (h : choice < num_bb) : (get_img_mask mask_prob rand choice num_bb).any id = true := by
  unfold get_img_mask
  cases hc : ((List.range num_bb).map (fun j => decide (rand j < mask_prob))).any id with
  | true => simp [hc]
  | false =>
    simp only [hc, Bool.false_eq_true, if_false]
    exact any_set_true _ choice (by simpa using h)

theorem bind_ne_error {α β : Type} (E : Err) (x : Except Err α) (f : α → Except Err β)
    (hx : x ≠ .error E) (hf : ∀ a, f a ≠ .error E) : x.bind f ≠ .error E := by
  cases x with
  | error e => intro h; exact hx (by simpa [Except.bind] using h)
  | ok a => intro h; exact hf a (by simpa [Except.bind] using h)

theorem map_ne_error {α β : Type} (E : Err) (x : Except Err α) (g : α → β)
    (hx : x ≠ .error E) : x.map g ≠ .error E := by
  cases x with
  | error e => intro h; exact hx (by simpa [Except.map] using h)
  | ok a => simp [Except.map]

/-! ## C2: the drawn image mask is never all-false -/

/-- C2: for every batch whose examples have at least one region and for
every outcome of the random draws (any rationals for the per-position
`random.random()` draws and any valid `random.choice` index — the bound
`r.choice i < num_feat` is exactly what `random.choice(range(num_feat))`
guarantees, and it forces `num_feat ≥ 1`), every per-example mask stored by
`_add_image_feat_masked` contains at least one true position, for any
configured mask probability including 0. -/
theorem add_image_feat_masked_mask_never_all_false
    (mask_prob : ℚ) (r : Rnd) (sl sl' : SampleList) (feat : Feat) (masks : BMask)
    (hf : sl.image_feat = some feat)
    (hchoice : ∀ i, r.choice i < (feat.headD []).length)
    (hrun : add_image_feat_masked mask_prob r sl = .ok sl')
    (hm : sl'.image_mask = some masks) :
    ∀ row ∈ masks, row.any id = true := by
  unfold add_image_feat_masked at hrun
  rw [hf] at hrun
  simp only [Except.ok.injEq] at hrun
  subst hrun
  simp only [Option.some.injEq] at hm
  subst hm
  intro row hrow
  rw [List.mem_map] at hrow
  obtain ⟨i, _, rfl⟩ := hrow
  exact get_img_mask_any_true _ _ _ _ (hchoice i)

/-- Witness for C2 at a concrete batch: mask probability 0, all draws 0,
one example with one region — the stored mask is `[[true]]`. -/
theorem add_image_feat_masked_mask_never_all_false_witness :
    List.any [true] id = true :=
  add_image_feat_masked_mask_never_all_false 0 rW slW2
    { slW2 with image_feat_masked := some [[[0]]], image_mask := some [[true]] }
    [[[3]]] [[true]] rfl (fun _ => Nat.one_pos) rfl rfl
    [true] (List.mem_cons_self [true] [])

/-! ## C5: the `is_correct` precondition -/

theorem remove_mismatched_captions_ne_missing (sl : SampleList) :
    remove_mismatched_captions sl ≠ Except.error Err.missingIsCorrect := by
  unfold remove_mismatched_captions
  cases sl.is_correct <;> simp

theorem add_image_feat_masked_ne_missing (p : ℚ) (r : Rnd) (sl : SampleList) :
    add_image_feat_masked p r sl ≠ Except.error Err.missingIsCorrect := by
  unfold add_image_feat_masked
  cases sl.image_feat <;> simp

theorem process_sample_list_ne_missing (p : ℚ) (r : Rnd) (sl : SampleList) :
    process_sample_list_for_pretraining p r sl ≠ Except.error Err.missingIsCorrect := by
  unfold process_sample_list_for_pretraining
  apply bind_ne_error
  · split
    · apply bind_ne_error _ _ _ (add_image_feat_masked_ne_missing p r sl)
      intro a
      cases a.image_info_cls_prob <;> simp
    · simp
  · intro a
    split
    · exact remove_mismatched_captions_ne_missing a
    · simp

theorem preprocess_mlm_ne_missing (ii : Int) (sl : SampleList) :
    preprocess_mlm ii sl ≠ Except.error Err.missingIsCorrect := by
  unfold preprocess_mlm
  cases sl.lm_label_ids <;> cases sl.input_ids_masked <;> cases sl.image_feat <;> simp

theorem preprocess_itm_ne_missing (sl : SampleList) :
    preprocess_itm sl ≠ Except.error Err.missingIsCorrect := by
  unfold preprocess_itm
  cases sl.is_correct <;> simp

theorem preprocess_mrc_ne_missing (sl : SampleList) :
    preprocess_mrc sl ≠ Except.error Err.missingIsCorrect := by
  unfold preprocess_mrc
  cases sl.cls_prob <;> cases sl.image_mask <;> cases sl.image_feat_masked <;>
    cases sl.input_ids <;> simp

theorem preprocess_mrfr_ne_missing (sl : SampleList) :
    preprocess_mrfr sl ≠ Except.error Err.missingIsCorrect := by
  unfold preprocess_mrfr
  cases sl.image_mask <;> cases sl.image_feat_masked <;> cases sl.image_feat <;>
    cases sl.input_ids <;> simp

theorem preprocess_wra_ne_missing (sl : SampleList) :
    preprocess_wra sl ≠ Except.error Err.missingIsCorrect := by
  unfold preprocess_wra
  cases sl.is_correct <;> cases sl.input_ids <;> cases sl.image_feat <;> simp

theorem dispatchTask_ne_missing (cfg : PretrainCfg) (sl : SampleList) :
    dispatchTask cfg sl ≠ Except.error Err.missingIsCorrect := by
  unfold dispatchTask
  split
  · exact preprocess_mlm_ne_missing _ sl
  split
  · exact preprocess_itm_ne_missing sl
  split
  · exact preprocess_mrc_ne_missing sl
  split
  · exact preprocess_mrfr_ne_missing sl
  split
  · exact preprocess_wra_ne_missing sl
  · simp

/-- C5: the pretraining forward fails with the distinguished
mismatched-captions assertion exactly when the batch lacks `is_correct`:
when the field is absent the assertion fires before any preprocessing or
encoding (the result depends on nothing else in the batch), and when it is
present no execution path ever produces that error. -/
theorem forward_requires_is_correct (cfg : PretrainCfg) (r : Rnd) (sl : SampleList) :
    (sl.is_correct = none →
      UniterForPretraining.forward cfg r sl = .error .missingIsCorrect)
    ∧ (∀ ic, sl.is_correct = some ic →
      UniterForPretraining.forward cfg r sl ≠ .error .missingIsCorrect) := by
  constructor
  · intro h
    unfold UniterForPretraining.forward
    rw [h]
  · intro ic h
    unfold UniterForPretraining.forward
    rw [h]
    apply bind_ne_error _ _ _ (process_sample_list_ne_missing _ _ _)
    intro a
    exact map_ne_error _ _ _ (dispatchTask_ne_missing cfg a)

/-- Witness for C5: a batch without `is_correct` fails with the
mismatched-captions assertion; an itm batch carrying `is_correct` does
not. -/
theorem forward_requires_is_correct_witness :
    UniterForPretraining.forward cfgW rW slEmpty = .error .missingIsCorrect
    ∧ UniterForPretraining.forward cfgW rW slITM ≠ .error .missingIsCorrect :=
  ⟨(forward_requires_is_correct cfgW rW slEmpty).1 rfl,
   (forward_requires_is_correct cfgW rW slITM).2 [1] rfl⟩

/-! ## C6: closed task dispatch -/

/-- C6: the pretraining forward is the common preprocessing followed by a
closed dispatch over `task ∈ {mlm, itm, mrc, mrfr, wra}`: each of the five
supported values selects exactly its preprocessing routine, and any other
value makes the forward fail with `unsupportedTask` — after the common
preprocessing (which, the task being none of itm/wra/mrc/mrfr, reduces to
the filter pass) and without producing anything for the encoder. -/
theorem forward_task_dispatch (cfg : PretrainCfg) (r : Rnd) (sl : SampleList) (ic : List Int)
    (hic : sl.is_correct = some ic) :
    (UniterForPretraining.forward cfg r sl
      = (process_sample_list_for_pretraining cfg.mask_probability r sl).bind (fun s1 =>
          (dispatchTask cfg s1).map (fun s2 => (s2, mkEncoderIn s2))))
    ∧ (sl.task = "mlm" → dispatchTask cfg sl = preprocess_mlm cfg.mlm_ignore_index sl)
    ∧ (sl.task = "itm" → dispatchTask cfg sl = preprocess_itm sl)
    ∧ (sl.task = "mrc" → dispatchTask cfg sl = preprocess_mrc sl)
    ∧ (sl.task = "mrfr" → dispatchTask cfg sl = preprocess_mrfr sl)
    ∧ (sl.task = "wra" → dispatchTask cfg sl = preprocess_wra sl)
    ∧ (sl.task ∉ (["mlm", "itm", "mrc", "mrfr", "wra"] : List String) →
        UniterForPretraining.forward cfg r sl = .error (.unsupportedTask sl.task)) := by
  refine ⟨?_, ?_, ?_, ?_, ?_, ?_, ?_⟩
  · unfold UniterForPretraining.forward
    rw [hic]
  · intro h; simp [dispatchTask, h]
  · intro h; simp [dispatchTask, h]
  · intro h; simp [dispatchTask, h]
  · intro h; simp [dispatchTask, h]
  · intro h; simp [dispatchTask, h]
  · intro hnot
    simp only [List.mem_cons, List.not_mem_nil, or_false, not_or] at hnot
    obtain ⟨h1, h2, h3, h4, h5⟩ := hnot
    unfold UniterForPretraining.forward
    rw [hic]
    simp [process_sample_list_for_pretraining, remove_mismatched_captions, dispatchTask,
      hic, h1, h2, h3, h4, h5, Except.bind, Except.map]

/-- Witness for C6: a `vqa` task fails with `unsupportedTask` while the itm
task selects `_preprocess_itm`. -/
theorem forward_task_dispatch_witness :
    UniterForPretraining.forward cfgW rW slBadTask = .error (.unsupportedTask "vqa")
    ∧ dispatchTask cfgW slITM = preprocess_itm slITM :=
  ⟨(forward_task_dispatch cfgW rW slBadTask [1] rfl).2.2.2.2.2.2 (by decide),
   (forward_task_dispatch cfgW rW slITM [1] rfl).2.2.1 rfl⟩

/-! ## C1: the mismatched-caption filter is a no-op (code bug) -/

/-- C1 (code bug evaluation): on a two-example mlm batch whose second pair
is mismatched (`is_correct = [1, 0]`), the common preprocessing — which for
mlm consists exactly of `_remove_mismatched_captions` — returns the batch
*unchanged*: `input_ids` still holds both examples, because the filtered
tensors computed at lines 532-543 are bound to a local variable and never
written back.  Had they been written back (last conjunct), `input_ids`
would have been reduced to the single matching example. -/
theorem remove_mismatched_captions_discards_filter :
    process_sample_list_for_pretraining 0 rW slC1 = .ok slC1
    ∧ remove_mismatched_captions slC1 = .ok slC1
    ∧ slC1.is_correct = some [1, 0]
    ∧ slC1.input_ids = some [[7], [8]]
    ∧ remove_mismatched_captions_filtered slC1
        = .ok { slC1 with input_ids := some [[7]] } := by
  refine ⟨rfl, rfl, rfl, rfl, ?_⟩
  rfl

/-! ## C10: the forward's updates land in the caller's batch -/

/-- C10: the pretraining forward threads the caller's sample list through
its preprocessing and returns its final contents (the Python code mutates
the dict in place, so these updates are what the caller observes): on a
concrete mlm batch the final `input_ids` equals `input_ids_masked` and
differs from the original `input_ids`; on a concrete mrc batch `image_mask`
has been overwritten with the freshly drawn mask and `image_feat` with the
masked features. -/
theorem forward_mutates_sample_list :
    UniterForPretraining.forward cfgW rW slMLM = .ok (slMLMfin, mkEncoderIn slMLMfin)
    ∧ slMLMfin.input_ids = slMLMfin.input_ids_masked
    ∧ slMLMfin.input_ids ≠ slMLM.input_ids
    ∧ UniterForPretraining.forward cfgW rW slMRC = .ok (slMRCfin, mkEncoderIn slMRCfin)
    ∧ slMRCfin.image_mask = some [[true]]
    ∧ slMRC.image_mask = some [[false]]
    ∧ slMRCfin.image_feat = slMRCfin.image_feat_masked
    ∧ slMRCfin.image_feat ≠ slMRC.image_feat := by
  refine ⟨rfl, rfl, by decide, rfl, rfl, rfl, rfl, by decide⟩

/-! ## C9: mrfr targets are gathered from the unmasked features -/

/-- C9: `_add_image_feat_masked` leaves `image_feat` untouched (it clones
the tensor and `masked_fill` is out of place), storing the zeroed copy only
under `image_feat_masked`; consequently `_preprocess_mrfr` gathers its
regression targets from the *original* feature vectors, and only afterwards
replaces `image_feat` with the masked copy. -/
theorem mrfr_targets_use_unmasked_features
    (p : ℚ) (r : Rnd) (sl sl1 sl2 : SampleList) (feat : Feat) (masks : BMask)
    (hf : sl.image_feat = some feat)
    (h1 : add_image_feat_masked p r sl = .ok sl1)
    (hm : sl1.image_mask = some masks)
    (h2 : preprocess_mrfr sl1 = .ok sl2) :
    sl1.image_feat = some feat
    ∧ sl1.image_feat_masked = some (maskedFill0 masks feat)
    ∧ sl2.mrfr_target = some (gatherMasked masks feat)
    ∧ sl2.image_feat = some (maskedFill0 masks feat) := by
  unfold add_image_feat_masked at h1
  rw [hf] at h1
  simp only [Except.ok.injEq] at h1
  subst h1
  simp only [Option.some.injEq] at hm
  subst hm
  unfold preprocess_mrfr at h2
  simp only [hf] at h2
  cases hids : sl.input_ids with
  | none => rw [hids] at h2; cases h2
  | some ids =>
    rw [hids] at h2
    simp only [Except.ok.injEq] at h2
    subst h2
    exact ⟨by simp [hf], rfl, rfl, rfl⟩

/-- Witness for C9 on a concrete one-region mrfr batch: the target row is
the original feature vector `[5]`, while the features handed on are the
zeroed copy. -/
theorem mrfr_targets_use_unmasked_features_witness :
    slW9a.image_feat = some [[[5]]]
    ∧ slW9a.image_feat_masked = some (maskedFill0 [[true]] [[[5]]])
    ∧ slW9b.mrfr_target = some (gatherMasked [[true]] [[[5]]])
    ∧ slW9b.image_feat = some (maskedFill0 [[true]] [[[5]]]) :=
  mrfr_targets_use_unmasked_features 0 rW slW9 slW9a slW9b [[[5]]] [[true]]
    rfl rfl rfl rfl

/-! ## C3: embedding-path selection in the joint encoder base -/

/-- C3: in `UniterModelBase.forward` the embedding is the image embedding
alone when `input_ids` is absent, the text embedding alone when `img_feat`
is absent, and otherwise the text embedding concatenated with the image
embedding along the sequence dimension (text first), unchanged by any
gather/compaction index; image type ids default to an all-ones tensor when
not supplied. -/
theorem embedding_path_selection (M : UniterModelBase) (p : Option Mat) (f : Feat)
    (pf : Feat) (g : Option Mat) (gm : Option BMask) (tt it : Option Mat) (ids : Mat) :
    (M.embeddingOutput none p (some f) pf g gm tt it = M.computeImgEmbeddings f pf gm it)
    ∧ (M.embeddingOutput (some ids) p none pf g gm tt it = M.computeTxtEmbeddings ids p tt)
    ∧ (M.embeddingOutput (some ids) p (some f) pf g gm tt it
        = List.zipWith (· ++ ·) (M.computeTxtEmbeddings ids p tt)
            (M.computeImgEmbeddings f pf gm it))
    ∧ (∀ g' : Option Mat, M.embeddingOutput (some ids) p (some f) pf g gm tt it
        = M.embeddingOutput (some ids) p (some f) pf g' gm tt it)
    ∧ (M.computeImgEmbeddings f pf gm none
        = M.imgEmb.forward f pf
            (M.tokenTypeEmb (f.map (fun ex => ex.map (fun _ => (1 : Int))))) gm)
    ∧ (∀ (i : Option Mat) (fo : Option Feat) (am : Mat) (ohs : Bool),
        M.forward i p fo pf am g gm ohs tt it
          = (fun layers => if ohs then layers else layers.drop (layers.length - 1))
              (M.encoder (M.embeddingOutput i p fo pf g gm tt it)
                (extendedAttentionMask am) ohs)) :=
  ⟨rfl, rfl, rfl, fun _ => rfl, rfl, fun _ _ _ _ => rfl⟩

/-! ## C7: the additive attention mask -/

/-- C7: the additive attention mask is the 0/1 padding mask unsqueezed to
(batch, 1, 1, seq) and mapped through `(1 - mask) * -10000`, so padding
positions (value 0) receive bias -10000 and kept positions (value 1)
receive bias 0; the joint-encoder forward hands exactly this mask to the
encoder stack whatever embedding path is taken. -/
theorem extended_attention_mask_values (M : UniterModelBase) (am : Mat)
    (h01 : ∀ row ∈ am, ∀ m ∈ row, m = 0 ∨ m = 1) :
    extendedAttentionMask am
      = am.map (fun row => [[row.map (fun m => if m = 0 then (-10000 : ℚ) else 0)]])
    ∧ (extendedAttentionMask am).length = am.length
    ∧ (∀ (i : Option Mat) (p : Option Mat) (fo : Option Feat) (pf : Feat) (g : Option Mat)
        (gm : Option BMask) (ohs : Bool) (tt it : Option Mat),
        M.forward i p fo pf am g gm ohs tt it
          = (fun layers => if ohs then layers else layers.drop (layers.length - 1))
              (M.encoder (M.embeddingOutput i p fo pf g gm tt it)
                (extendedAttentionMask am) ohs)) := by
  refine ⟨?_, by simp [extendedAttentionMask], fun _ _ _ _ _ _ _ _ _ => rfl⟩
  unfold extendedAttentionMask
  apply List.map_congr_left
  intro row hrow
  have : row.map (fun m : Int => (1 - (m : ℚ)) * (-10000))
      = row.map (fun m => if m = 0 then (-10000 : ℚ) else 0) := by
    apply List.map_congr_left
    intro m hm
    rcases h01 row hrow m hm with h | h <;> subst h <;> norm_num
  rw [this]

/-- Witness for C7 on the concrete padding mask `[[0, 1]]`. -/
theorem extended_attention_mask_values_witness :
    extendedAttentionMask [[0, 1]]
      = ([[0, 1]] : Mat).map
          (fun row => [[row.map (fun m => if m = 0 then (-10000 : ℚ) else 0)]]) :=
  (extended_attention_mask_values MW [[0, 1]] (by decide)).1

/-! ## C8: the learned mask embedding is added at masked positions -/

theorem zipWith_congr_mem {α β γ : Type _} (f g : α → β → γ) :
    ∀ (l1 : List α) (l2 : List β), (∀ a ∈ l1, ∀ b ∈ l2, f a b = g a b) →
      List.zipWith f l1 l2 = List.zipWith g l1 l2 := by
  intro l1
  induction l1 with
  | nil => intro l2 _; simp
  | cons a t ih =>
    intro l2 h
    cases l2 with
    | nil => simp
    | cons b s =>
      simp only [List.zipWith_cons_cons]
      rw [h a (List.mem_cons_self a t) b (List.mem_cons_self b s)]
      rw [ih s (fun x hx y hy => h x (List.mem_cons_of_mem a hx) y (List.mem_cons_of_mem b hy))]

theorem addVec_zeros : ∀ (v w : Vec), (∀ x ∈ w, x = 0) → v.length ≤ w.length →
    addVec v w = v := by
  intro v
  induction v with
  | nil => intro w _ _; simp [addVec]
  | cons a t ih =>
    intro w hw hl
    cases w with
    | nil => simp at hl
    | cons b s =>
      have hb : b = 0 := hw b (List.mem_cons_self b s)
      have ht : addVec t s = t :=
        ih s (fun x hx => hw x (List.mem_cons_of_mem b hx)) (by simpa using hl)
      simp only [addVec, List.zipWith_cons_cons] at ht ⊢
      rw [hb, add_zero, ht]

/-- C8: in the image-embedding forward with a mask supplied, since row 0 of
the mask-embedding table is zeroed before the lookup on the integer-cast
mask, the raw region features receive the table's row-1 vector exactly at
the true positions and stay unchanged at the false positions (however many
positions are true); with no mask the features are used as-is; the rest of
the forward consumes the mask-adjusted features. -/
theorem image_embeddings_mask_addition (m : UniterImageEmbeddings) (feat : Feat)
    (masks : BMask) (pos te : Feat)
    (h0 : m.mask_embedding_row0.length = m.mask_embedding_row1.length)
    (hd : ∀ ex ∈ feat, ∀ v ∈ ex, v.length = m.mask_embedding_row1.length) :
    m.applyMask feat (some masks)
      = List.zipWith
          (fun ex mrow =>
            List.zipWith (fun v b => if b then addVec v m.mask_embedding_row1 else v) ex mrow)
          feat masks
    ∧ m.applyMask feat none = feat
    ∧ (m.forward feat pos te (some masks)
        = m.transform (m.applyMask feat (some masks)) pos te) := by
  refine ⟨?_, rfl, rfl⟩
  unfold UniterImageEmbeddings.applyMask
  apply zipWith_congr_mem
  intro ex hex mrow _
  apply zipWith_congr_mem
  intro v hv b _
  cases b with
  | true => simp
  | false =>
    have hz : ∀ x ∈ m.mask_embedding_row0.map (fun _ => (0 : ℚ)), x = 0 := by
      intro x hx
      rw [List.mem_map] at hx
      obtain ⟨y, _, hxy⟩ := hx
      exact hxy.symm
    have hl : v.length ≤ (m.mask_embedding_row0.map (fun _ => (0 : ℚ))).length := by
      rw [List.length_map, h0]
      exact le_of_eq (hd ex hex v hv)
    simpa using addVec_zeros v _ hz hl

/-- Witness for C8: two one-dimensional regions, first masked, second not —
row 1 (`[20]`) is added to the first only. -/
theorem image_embeddings_mask_addition_witness :
    mIE.applyMask [[[1], [2]]] (some [[true, false]])
      = List.zipWith
          (fun ex mrow =>
            List.zipWith (fun v b => if b then addVec v mIE.mask_embedding_row1 else v) ex mrow)
          [[[1], [2]]] [[true, false]] :=
  (image_embeddings_mask_addition mIE [[[1], [2]]] [[true, false]] [] [] rfl
    (by decide)).1

/-! ## C4: head-output post-processing -/

/-- C4: `_process_head_outputs` passes a mapping containing `losses`
through unchanged; otherwise it reshapes the scores (the mapping's `scores`
entry if present, else the raw tensor output) to two dimensions whose last
dimension is the tensor's original last dimension, applies the loss unit
keyed by the dataset name, and returns `{losses, scores}`. -/
theorem process_head_outputs_cases {S L : Type} (dn : String)
    (lossFn : String → S → PTensor → L) (sl : S) (m : HeadMap L) (t : PTensor) :
    (m.losses.isSome →
      process_head_outputs dn lossFn sl (.mapping m) = .ok (.mapping m))
    ∧ (process_head_outputs dn lossFn sl (.tensor t)
        = .ok (.mapping
            ⟨some (lossFn dn sl (t.view2 t.sizeLast)), some (t.view2 t.sizeLast)⟩))
    ∧ (∀ s : PTensor, m.losses = none → m.scores = some s →
        process_head_outputs dn lossFn sl (.mapping m)
          = .ok (.mapping
              ⟨some (lossFn dn sl (s.view2 s.sizeLast)), some (s.view2 s.sizeLast)⟩))
    ∧ (t.view2 t.sizeLast).shape = [t.data.length / t.sizeLast, t.sizeLast] := by
  refine ⟨?_, rfl, ?_, rfl⟩
  · intro h
    cases hl : m.losses with
    | none => rw [hl] at h; simp at h
    | some l => simp [process_head_outputs, hl]
  · intro s h1 h2
    simp [process_head_outputs, h1, h2]

/-- Witness for C4: a mapping already carrying `losses` passes through; a
mapping with only `scores` (a (2,3)-shaped tensor of six entries) gets the
loss applied to the reshaped logits. -/
theorem process_head_outputs_cases_witness :
    process_head_outputs "d" (fun _ _ _ => (5 : Nat)) () (.mapping ⟨some 9, none⟩)
      = .ok (.mapping ⟨some 9, none⟩)
    ∧ process_head_outputs "d" (fun _ _ _ => (5 : Nat)) ()
        (.mapping ⟨none, some ⟨[2, 3], [1, 2, 3, 4, 5, 6]⟩⟩)
      = .ok (.mapping ⟨some 5, some ⟨[2, 3], [1, 2, 3, 4, 5, 6]⟩⟩) :=
  ⟨(process_head_outputs_cases "d" (fun _ _ _ => (5 : Nat)) ()
      ⟨some 9, none⟩ ⟨[2, 3], [1, 2, 3, 4, 5, 6]⟩).1 rfl,
   (process_head_outputs_cases "d" (fun _ _ _ => (5 : Nat)) ()
      ⟨none, some ⟨[2, 3], [1, 2, 3, 4, 5, 6]⟩⟩ ⟨[2, 3], [1, 2, 3, 4, 5, 6]⟩).2.2.1
      ⟨[2, 3], [1, 2, 3, 4, 5, 6]⟩ rfl rfl⟩

end UniterSpec
